import Mathlib

set_option maxHeartbeats 1600000

/-!
Verification development for the kururi-compiler pipeline
(lexer / parser / semantic analyzer / code generator).

The Lean definitions below are a shallow embedding of the Rust sources:
  * `src/compiler/src/token.rs`    → `Kururi.Token`
  * `src/compiler/src/ast.rs`      → `Kururi.KururiType`, `Kururi.AstNode`, operators
  * `src/compiler/src/error.rs`    → `Kururi.CompilerError`
  * `src/compiler/src/lexer.rs`    → `Kururi.tokenize`
  * `src/compiler/src/parser_new.rs` → `Kururi.parseExampleKururi`
  * `src/compiler/src/semantic.rs` → `Kururi.analyzeAst` and helpers
  * `src/compiler/src/codegen.rs`  → `Kururi.generateAst` and helpers
  * `src/compiler/src/compiler.rs` → `Kururi.compileAst`

Rust `&mut self` state is threaded explicitly; fallible code returns
`Except CompilerError`.  `Vec` becomes `List`; `HashMap` becomes an
association list whose lookup takes the first (most recently inserted)
binding, which is observationally equal to `HashMap` for the get /
contains_key / insert operations the sources use.
-/

/-- Decidable equality on `Except`, used to evaluate the pipeline on
concrete inputs inside proofs. -/
instance {ε α : Type} [DecidableEq ε] [DecidableEq α] : DecidableEq (Except ε α) := fun x y =>
  match x, y with
  | .ok a, .ok b => if h : a = b then isTrue (by rw [h]) else isFalse (by simp [h])
  | .error a, .error b => if h : a = b then isTrue (by rw [h]) else isFalse (by simp [h])
  | .ok _, .error _ => isFalse (by simp)
  | .error _, .ok _ => isFalse (by simp)

namespace Kururi

/-- Payload of a number token / number literal.  The Rust sources store an
IEEE-754 `f64`, but the pipeline never performs arithmetic on it: the lexer
parses it from decimal text, the analyzer only propagates it, and the
emitter renders it back with Rust `Display`.  We therefore embed a double
by its `Display` rendering (`9.0` is `⟨"9"⟩`, `1.5` is `⟨"1.5"⟩`), with
decidable equality.  This is exact for every literal the repository's
pipeline actually constructs (`9.0`, `1.0`, `10.0`). -/
structure KNum where
  render : String
deriving DecidableEq, Repr

/-- `KururiType` from ast.rs: the source-language type lattice. -/
inductive KururiType where
  | string
  | number
  | void
  | array (inner : KururiType)
  | cls (name : String)
deriving DecidableEq, Repr

/-- The `Display` implementation for `KururiType` in ast.rs. -/
def KururiType.render : KururiType → String
  | .string => "string"
  | .number => "number"
  | .void => "void"
  | .array inner => inner.render ++ "[]"
  | .cls name => name

/-- `BinaryOperator` from ast.rs. -/
inductive BinaryOperator where
  | add
  | subtract
  | multiply
  | divide
  | equal
  | notEqual
  | lessThan
  | lessThanOrEqual
  | greaterThan
  | greaterThanOrEqual
  | and
  | or
deriving DecidableEq, Repr

/-- `UnaryOperator` from ast.rs. -/
inductive UnaryOperator where
  | not
  | minus
deriving DecidableEq, Repr

/-- `AstNode` from ast.rs.  Keyword-clashing Rust names keep their meaning:
`cls` is `Class`. -/
inductive AstNode where
  | program (statements : List AstNode)
  | variableDeclaration (is_const : Bool) (name : String) (var_type : KururiType) (value : AstNode)
  | functionDeclaration (name : String) (params : List (String × KururiType))
      (return_type : KururiType) (body : List AstNode) (is_public : Bool)
  | classDeclaration (name : String) (fields : List (String × KururiType × AstNode))
      (methods : List AstNode)
  | ifStatement (condition : AstNode) (then_body : List AstNode)
      (elseif_branches : List (AstNode × List AstNode)) (else_body : Option (List AstNode))
  | whileStatement (condition : AstNode) (body : List AstNode)
  | forStatement (counter_var : String) (condition : AstNode) (body : List AstNode)
  | foreachStatement (var_name : String) (iterable : AstNode) (body : List AstNode)
  | binaryExpression (left : AstNode) (operator : BinaryOperator) (right : AstNode)
  | unaryExpression (operator : UnaryOperator) (operand : AstNode)
  | functionCall (name : String) (args : List AstNode)
  | methodCall (object : AstNode) (method : String) (args : List AstNode)
  | arrayAccess (array : AstNode) (index : AstNode)
  | arrayLiteral (elements : List AstNode)
  | propertyAccess (object : AstNode) (property : String)
  | assignment (target : AstNode) (value : AstNode)
  | stringLiteral (s : String)
  | numberLiteral (n : KNum)
  | booleanLiteral (b : Bool)
  | identifier (name : String)
  | returnStatement (value : Option AstNode)
  | newExpression (class_name : String) (args : List AstNode)
deriving Repr

/-- `CompilerError` from error.rs. -/
inductive CompilerError where
  | lexError (msg : String)
  | parseError (msg : String)
  | semanticError (msg : String)
  | codegenError (msg : String)
  | internalError (msg : String)
deriving DecidableEq, Repr

/-- The `Display` implementation for `CompilerError` in error.rs. -/
def CompilerError.display : CompilerError → String
  | .lexError msg => "Lexical analysis error: " ++ msg
  | .parseError msg => "Parse error: " ++ msg
  | .semanticError msg => "Semantic analysis error: " ++ msg
  | .codegenError msg => "Code generation error: " ++ msg
  | .internalError msg => "Internal error: " ++ msg

/-- `Token` from token.rs.  Rust variant names that are Lean keywords get a
`Kw` suffix (`Let` → `letKw`, `If` → `ifKw`, ...); operators that would
shadow core functions get an `Op` suffix. -/
inductive Token where
  | constKw
  | letKw
  | functionKw
  | classKw
  | publicKw
  | ifKw
  | elseifKw
  | elseKw
  | whileKw
  | forKw
  | foreachKw
  | inKw
  | returnKw
  | newKw
  | trueKw
  | falseKw
  | stringType
  | numberType
  | voidType
  | identifier (s : String)
  | stringLiteral (s : String)
  | numberLiteral (n : KNum)
  | plus
  | minus
  | multiply
  | divide
  | assign
  | equal
  | notEqual
  | lessThan
  | lessThanOrEqual
  | greaterThan
  | greaterThanOrEqual
  | andOp
  | orOp
  | notOp
  | leftParen
  | rightParen
  | leftBrace
  | rightBrace
  | leftBracket
  | rightBracket
  | comma
  | colon
  | dot
  | newline
  | eof
deriving DecidableEq, Repr

/-- `Token::keyword_or_identifier` from token.rs. -/
def Token.keywordOrIdentifier (s : String) : Token :=
  match s with
  | "const" => .constKw
  | "let" => .letKw
  | "function" => .functionKw
  | "class" => .classKw
  | "public" => .publicKw
  | "if" => .ifKw
  | "elseif" => .elseifKw
  | "else" => .elseKw
  | "while" => .whileKw
  | "for" => .forKw
  | "foreach" => .foreachKw
  | "in" => .inKw
  | "return" => .returnKw
  | "new" => .newKw
  | "true" => .trueKw
  | "false" => .falseKw
  | "string" => .stringType
  | "number" => .numberType
  | "void" => .voidType
  | _ => .identifier s

/-! ### The lexer (lexer.rs) -/

/-- `Lexer::read_string`: scan a string literal after the opening quote,
decoding the escape set; returns the decoded payload and the characters
after the closing quote. -/
def readStringLit : List Char → String → Except CompilerError (String × List Char)
  | [], _ => .error (.lexError "Unterminated string literal")
  | '"' :: rest, acc => .ok (acc, rest)
  | '\\' :: rest, acc =>
    match rest with
    | 'n' :: r => readStringLit r (acc.push '\n')
    | 't' :: r => readStringLit r (acc.push '\t')
    | 'r' :: r => readStringLit r (acc.push '\r')
    | '\\' :: r => readStringLit r (acc.push '\\')
    | '"' :: r => readStringLit r (acc.push '"')
    | c :: _ => .error (.lexError ("Invalid escape sequence: \\" ++ String.mk [c]))
    | [] => .error (.lexError "Unexpected end of input in string literal")
  | c :: rest, acc => readStringLit rest (acc.push c)

/-- Decimal rendering of the `f64` a numeral string parses to, for numerals
made of digits and at most one dot (the only shapes `read_number` collects):
drop leading zeros of the integer part and, when there is a dot, trailing
zeros of the fraction, then a trailing dot — e.g. `"9.0"` renders `"9"`.
Exact whenever the decimal value is exactly representable and short,
which covers every numeral in the repository and its tests. -/
def renderNumeral (s : List Char) : String :=
  let intPart := s.takeWhile (· ≠ '.')
  let rest := s.dropWhile (· ≠ '.')
  let intTrimmed :=
    let t := intPart.dropWhile (· = '0')
    if t.isEmpty then ['0'] else t
  let fracTrimmed := ((rest.drop 1).reverse.dropWhile (· = '0')).reverse
  if fracTrimmed.isEmpty then String.mk intTrimmed
  else String.mk (intTrimmed ++ '.' :: fracTrimmed)

/-- `value.parse::<f64>()` in `Lexer::read_number`, restricted to the digit
and dot runs that function collects: valid iff at most one dot occurs. -/
def parseNumeral (s : List Char) : Option KNum :=
  if (s.filter (· = '.')).length ≤ 1 ∧ ¬ s.isEmpty then
    some ⟨renderNumeral s⟩
  else
    none

/-- One pass of the `while let Some(ch)` loop of `Lexer::tokenize`.
Rust advances a cursor over a `Vec<char>`; here the unconsumed suffix is
passed along.  The `fuel` argument only bounds the loop: every iteration
consumes at least one character, so with `fuel = length + 1` the
out-of-fuel branch is unreachable. -/
def lexRun : Nat → List Char → Except CompilerError (List Token)
  | 0, _ => .error (.internalError "lexer fuel exhausted")
  | _ + 1, [] => .ok []
  | fuel + 1, c :: rest =>
    if c = ' ' ∨ c = '\t' ∨ c = '\r' then
      lexRun fuel rest
    else if c = '\n' then
      (Token.newline :: ·) <$> lexRun fuel rest
    else if c = '/' ∧ rest.head? = some '/' then
      lexRun fuel ((c :: rest).dropWhile (· ≠ '\n'))
    else if c = '"' then
      match readStringLit rest "" with
      | .ok (s, rest') => (Token.stringLiteral s :: ·) <$> lexRun fuel rest'
      | .error e => .error e
    else if c.isDigit then
      let numChars := (c :: rest).takeWhile (fun ch => ch.isDigit ∨ ch = '.')
      let rest' := (c :: rest).dropWhile (fun ch => ch.isDigit ∨ ch = '.')
      match parseNumeral numChars with
      | some n => (Token.numberLiteral n :: ·) <$> lexRun fuel rest'
      | none => .error (.lexError ("Invalid number format: " ++ String.mk numChars))
    else if c.isAlpha ∨ c = '_' then
      let identChars := (c :: rest).takeWhile (fun ch => ch.isAlphanum ∨ ch = '_')
      let rest' := (c :: rest).dropWhile (fun ch => ch.isAlphanum ∨ ch = '_')
      (Token.keywordOrIdentifier (String.mk identChars) :: ·) <$> lexRun fuel rest'
    else if c = '+' then (Token.plus :: ·) <$> lexRun fuel rest
    else if c = '-' then (Token.minus :: ·) <$> lexRun fuel rest
    else if c = '*' then (Token.multiply :: ·) <$> lexRun fuel rest
    else if c = '/' then (Token.divide :: ·) <$> lexRun fuel rest
    else if c = '=' then
      match rest with
      | '=' :: r => (Token.equal :: ·) <$> lexRun fuel r
      | _ => (Token.assign :: ·) <$> lexRun fuel rest
    else if c = '!' then
      match rest with
      | '=' :: r => (Token.notEqual :: ·) <$> lexRun fuel r
      | _ => (Token.notOp :: ·) <$> lexRun fuel rest
    else if c = '<' then
      match rest with
      | '=' :: r => (Token.lessThanOrEqual :: ·) <$> lexRun fuel r
      | _ => (Token.lessThan :: ·) <$> lexRun fuel rest
    else if c = '>' then
      match rest with
      | '=' :: r => (Token.greaterThanOrEqual :: ·) <$> lexRun fuel r
      | _ => (Token.greaterThan :: ·) <$> lexRun fuel rest
    else if c = '&' then
      match rest with
      | '&' :: r => (Token.andOp :: ·) <$> lexRun fuel r
      | _ => .error (.lexError ("Unexpected character: " ++ String.mk [c]))
    else if c = '|' then
      match rest with
      | '|' :: r => (Token.orOp :: ·) <$> lexRun fuel r
      | _ => .error (.lexError ("Unexpected character: " ++ String.mk [c]))
    else if c = '(' then (Token.leftParen :: ·) <$> lexRun fuel rest
    else if c = ')' then (Token.rightParen :: ·) <$> lexRun fuel rest
    else if c = '{' then (Token.leftBrace :: ·) <$> lexRun fuel rest
    else if c = '}' then (Token.rightBrace :: ·) <$> lexRun fuel rest
    else if c = '[' then (Token.leftBracket :: ·) <$> lexRun fuel rest
    else if c = ']' then (Token.rightBracket :: ·) <$> lexRun fuel rest
    else if c = ',' then (Token.comma :: ·) <$> lexRun fuel rest
    else if c = ':' then (Token.colon :: ·) <$> lexRun fuel rest
    else if c = '.' then (Token.dot :: ·) <$> lexRun fuel rest
    else .error (.lexError ("Unexpected character: " ++ String.mk [c]))

/-- `Lexer::tokenize`: empty input is a `LexError`; otherwise run the scan
loop and append the end-of-input token. -/
def tokenize (source_code : String) : Except CompilerError (List Token) :=
  if source_code.isEmpty then
    .error (.lexError "Empty source code")
  else
    (· ++ [Token.eof]) <$> lexRun (source_code.data.length + 1) source_code.data

/-! ### The parse stage used by `compile_ast` (parser_new.rs) -/

/-- The body of the inner `for j < 9` loop built by
`NewParser::parse_example_kururi`. -/
def exampleInnerForBody : List AstNode :=
  [ .variableDeclaration false "num1" .number
      (.binaryExpression (.identifier "i") .add (.numberLiteral ⟨"1"⟩)),
    .variableDeclaration false "num2" .number
      (.binaryExpression (.identifier "j") .add (.numberLiteral ⟨"1"⟩)),
    .variableDeclaration false "result" .number
      (.binaryExpression (.identifier "num1") .multiply (.identifier "num2")),
    .ifStatement
      (.binaryExpression (.identifier "result") .lessThan (.numberLiteral ⟨"10"⟩))
      [ .assignment (.identifier "row")
          (.binaryExpression
            (.binaryExpression
              (.binaryExpression (.identifier "row") .add (.stringLiteral " "))
              .add (.identifier "result"))
            .add (.stringLiteral " ")) ]
      []
      (some
        [ .assignment (.identifier "row")
            (.binaryExpression
              (.binaryExpression (.identifier "row") .add (.identifier "result"))
              .add (.stringLiteral " ")) ]) ]

/-- The body of the outer `for i < 9` loop built by
`NewParser::parse_example_kururi`. -/
def exampleOuterForBody : List AstNode :=
  [ .variableDeclaration false "row" .string (.stringLiteral ""),
    .forStatement "j"
      (.binaryExpression (.identifier "j") .lessThan (.numberLiteral ⟨"9"⟩))
      exampleInnerForBody,
    .functionCall "output" [.identifier "row"] ]

/-- The fixed multiplication-table program node that
`NewParser::parse_example_kururi` constructs (its Rust doc comment calls it
the parser dedicated to the updated example.kururi). -/
def exampleAst : AstNode :=
  .program
    [ .functionDeclaration "main" [] .void
        [ .functionCall "output" [.stringLiteral "掛け算九九の表"],
          .functionCall "output" [.stringLiteral "================="],
          .forStatement "i"
            (.binaryExpression (.identifier "i") .lessThan (.numberLiteral ⟨"9"⟩))
            exampleOuterForBody ]
        false ]

/-- `NewParser::parse_example_kururi`: an empty token slice is a
`ParseError`; any other token slice yields the fixed multiplication-table
program, without inspecting the tokens. -/
def parseExampleKururi (tokens : List Token) : Except CompilerError AstNode :=
  if tokens.isEmpty then
    .error (.parseError "No tokens to parse")
  else
    .ok exampleAst

/-! ### The semantic analyzer (semantic.rs)

Rust keeps `scopes: Vec<HashMap<String, KururiType>>` with the innermost
scope last, pushed/popped at the back, and searched back-to-front.  We
store the innermost scope at the head of a list, so push is cons, pop is
tail, `last_mut` is the head, and `iter().rev()` is plain left-to-right
order.  A `HashMap` becomes an association list whose lookup takes the
first binding; insertion conses, which is observationally the same for
get / contains_key / insert. -/

/-- One scope: identifier name → declared type. -/
abbrev Scope := List (String × KururiType)

/-- First-match association-list lookup (the `HashMap::get` of the model). -/
def assocLookup {β : Type} : List (String × β) → String → Option β
  | [], _ => none
  | (k, v) :: rest, n => if k = n then some v else assocLookup rest n

/-- The fields of Rust's `SemanticAnalyzer` (its `&mut self` state). -/
structure AnalyzerState where
  scopes : List Scope
  functions : List (String × (List KururiType × KururiType))
  current_function_return_type : Option KururiType
deriving DecidableEq, Repr

/-- `SemanticAnalyzer::new`: one empty global scope and a function table
seeded with the built-in `output(string) → void`. -/
def initState : AnalyzerState :=
  { scopes := [[]]
    functions := [("output", ([KururiType.string], KururiType.void))]
    current_function_return_type := none }

/-- Insert a binding into the innermost scope
(`self.scopes.last_mut().insert(..)`; a no-op when there is no scope,
mirroring the `if let Some(current_scope)` guard). -/
def insertVar (name : String) (t : KururiType) (s : AnalyzerState) : AnalyzerState :=
  match s.scopes with
  | [] => s
  | sc :: rest => { s with scopes := ((name, t) :: sc) :: rest }

/-- `self.scopes.push(HashMap::new())`. -/
def pushScope (s : AnalyzerState) : AnalyzerState :=
  { s with scopes := [] :: s.scopes }

/-- `self.scopes.pop()`. -/
def popScope (s : AnalyzerState) : AnalyzerState :=
  { s with scopes := s.scopes.drop 1 }

/-- `SemanticAnalyzer::get_variable_type`: search from the innermost scope
outwards. -/
def getVariableType (s : AnalyzerState) (name : String) : Except CompilerError KururiType :=
  match lookupScopes s.scopes name with
  | some t => .ok t
  | none => .error (.semanticError ("Undefined variable: " ++ name))
where
  /-- Innermost-first search over the scope stack. -/
  lookupScopes : List Scope → String → Option KururiType
    | [], _ => none
    | sc :: rest, n =>
      match assocLookup sc n with
      | some t => some t
      | none => lookupScopes rest n

/-- `SemanticAnalyzer::is_variable_defined`. -/
def isVariableDefined (s : AnalyzerState) (name : String) : Bool :=
  (getVariableType.lookupScopes s.scopes name).isSome

/-- `SemanticAnalyzer::types_compatible`: strict equality. -/
def typesCompatible (expected actual : KururiType) : Bool :=
  expected = actual

/-- `SemanticAnalyzer::get_expression_type` (a `&self` method: it reads the
state but never changes it). -/
def getExpressionType (s : AnalyzerState) : AstNode → Except CompilerError KururiType
  | .stringLiteral _ => .ok .string
  | .numberLiteral _ => .ok .number
  | .booleanLiteral _ => .ok .string
  | .identifier name => getVariableType s name
  | .functionCall name _ =>
    match assocLookup s.functions name with
    | some (_, return_type) => .ok return_type
    | none => .error (.semanticError ("Undefined function: " ++ name))
  | .arrayLiteral [] => .ok (.array .string)
  | .arrayLiteral (e :: _) => do
      let first_type ← getExpressionType s e
      .ok (.array first_type)
  | .binaryExpression left operator right => do
      let left_type ← getExpressionType s left
      let right_type ← getExpressionType s right
      match operator with
      | .add =>
        if left_type = KururiType.number ∧ right_type = KururiType.number then
          .ok .number
        else
          .ok .string
      | .subtract | .multiply | .divide => .ok .number
      | .lessThan | .lessThanOrEqual | .greaterThan | .greaterThanOrEqual
      | .equal | .notEqual => .ok .string
      | _ => .ok .string
  | _ => .ok .string
termination_by structural e => e

mutual

/-- `SemanticAnalyzer::analyze_ast`, with the `&mut self` state threaded
explicitly: on success it returns the analyzed node and the updated state. -/
def analyzeAst : AstNode → AnalyzerState → Except CompilerError (AstNode × AnalyzerState)
  | .program statements, s => do
      let (statements', s₁) ← analyzeList statements s
      .ok (.program statements', s₁)
  | .functionDeclaration name params return_type body is_public, s => do
      let (body', s₁) ← analyzeList body s
      .ok (.functionDeclaration name params return_type body' is_public, s₁)
  | .variableDeclaration is_const name var_type value, s => do
      let (value', s₁) ← analyzeAst value s
      let value_type ← getExpressionType s₁ value
      if ¬ typesCompatible var_type value_type then
        .error (.semanticError
          ("Type mismatch: expected " ++ var_type.render ++ ", found " ++ value_type.render))
      else
        .ok (.variableDeclaration is_const name var_type value', insertVar name var_type s₁)
  | .functionCall name args, s =>
      match assocLookup s.functions name with
      | some (param_types, _) =>
        if args.length ≠ param_types.length then
          .error (.semanticError
            ("Function " ++ name ++ " expects " ++ toString param_types.length ++
             " arguments, got " ++ toString args.length))
        else do
          let (args', s₁) ← analyzeArgs param_types 0 args s
          .ok (.functionCall name args', s₁)
      | none => .error (.semanticError ("Undefined function: " ++ name))
  | .identifier name, s =>
      if isVariableDefined s name then
        .ok (.identifier name, s)
      else
        .error (.semanticError ("Undefined variable: " ++ name))
  | .stringLiteral v, s => .ok (.stringLiteral v, s)
  | .numberLiteral v, s => .ok (.numberLiteral v, s)
  | .booleanLiteral v, s => .ok (.booleanLiteral v, s)
  | .forStatement counter_var condition body, s => do
      let s₁ := insertVar counter_var .number (pushScope s)
      let (condition', s₂) ← analyzeAst condition s₁
      let (body', s₃) ← analyzeList body s₂
      .ok (.forStatement counter_var condition' body', popScope s₃)
  | .ifStatement condition then_body elseif_branches else_body, s => do
      let (condition', s₁) ← analyzeAst condition s
      let (then_body', s₂) ← analyzeList then_body s₁
      match else_body with
      | some else_stmts => do
          let (else_stmts', s₃) ← analyzeList else_stmts s₂
          .ok (.ifStatement condition' then_body' elseif_branches (some else_stmts'), s₃)
      | none => .ok (.ifStatement condition' then_body' elseif_branches none, s₂)
  | .assignment target value, s =>
      match target with
      | .identifier var_name =>
        if ¬ isVariableDefined s var_name then
          .error (.semanticError ("Undefined variable: " ++ var_name))
        else do
          let (value', s₁) ← analyzeAst value s
          .ok (.assignment target value', s₁)
      | _ => .error (.semanticError "Assignment target must be an identifier")
  | .binaryExpression left operator right, s => do
      let (left', s₁) ← analyzeAst left s
      let (right', s₂) ← analyzeAst right s₁
      .ok (.binaryExpression left' operator right', s₂)
  | other, s => .ok (other, s)
termination_by structural a s => a

/-- The statement loops of `analyze_ast` (`for stmt in body { ..push(self.analyze_ast(stmt)?).. }`). -/
def analyzeList : List AstNode → AnalyzerState → Except CompilerError (List AstNode × AnalyzerState)
  | [], s => .ok ([], s)
  | stmt :: rest, s => do
      let (stmt', s₁) ← analyzeAst stmt s
      let (rest', s₂) ← analyzeList rest s₁
      .ok (stmt' :: rest', s₂)
termination_by structural l s => l

/-- The argument loop of the `FunctionCall` arm: analyze each argument,
compute its type, and compare it with `param_types[i]`.  The `[]` parameter
case mirrors the Rust index panic and is unreachable from `analyzeAst`,
which checks the arity first. -/
def analyzeArgs : List KururiType → Nat → List AstNode → AnalyzerState →
    Except CompilerError (List AstNode × AnalyzerState)
  | _, _, [], s => .ok ([], s)
  | param_types, i, arg :: args, s => do
      let (arg', s₁) ← analyzeAst arg s
      let arg_type ← getExpressionType s₁ arg
      match param_types with
      | expected :: rest_params =>
        if ¬ typesCompatible expected arg_type then
          .error (.semanticError
            ("Argument " ++ toString (i + 1) ++ " type mismatch: expected " ++
             expected.render ++ ", found " ++ arg_type.render))
        else do
          let (args', s₂) ← analyzeArgs rest_params (i + 1) args s₁
          .ok (arg' :: args', s₂)
      | [] => .error (.internalError "argument index out of bounds")
termination_by structural ps i l s => l

end

/-! ### The code generator (codegen.rs)

The Rust string helpers that Lean's `String` namespace does not evaluate in
the kernel are modelled char-wise: `replace('"', "\\\"")`, `str::lines`,
`trim().is_empty()`, and `str::contains`. -/

/-- `value.replace('\"', "\\\"")` from the string-literal arm. -/
def escapeQuotes : List Char → List Char
  | [] => []
  | '"' :: rest => '\\' :: '"' :: escapeQuotes rest
  | c :: rest => c :: escapeQuotes rest

/-- `s.trim().is_empty()`: true iff every character is whitespace.  (Rust
trims Unicode whitespace; every string the generator builds only ever uses
ASCII whitespace, where the two notions agree.) -/
def strTrimEmpty (s : String) : Bool :=
  s.data.all Char.isWhitespace

/-- Helper for `rustLines`: split at newline characters, emitting no final
empty line for input ending in a newline. -/
def rustLinesAux : List Char → List Char → List String
  | [], acc => if acc.isEmpty then [] else [String.mk acc.reverse]
  | '\n' :: rest, acc => String.mk acc.reverse :: rustLinesAux rest []
  | c :: rest, acc => rustLinesAux rest (c :: acc)

/-- `str::lines()`.  (Rust also strips a `\r` before the newline; the
generator never emits `\r`.) -/
def rustLines (s : String) : List String :=
  rustLinesAux s.data []

/-- The inner loop of `generate_statements_body`: keep the non-blank lines
of one statement's code, each indented by four spaces. -/
def indentLines (code : String) : List String :=
  (rustLines code).filterMap fun line =>
    if strTrimEmpty line then none else some ("    " ++ line)

/-- The tail of `generate_statements_body`: a block with no (non-blank)
lines is a single `pass`, otherwise the lines joined by newlines.  (The
Rust early return for an empty statement list produces the same `pass`.) -/
def assembleBody (body_lines : List String) : String :=
  if body_lines.isEmpty then "    pass" else String.intercalate "\n" body_lines

/-- The operator table inlined in the `BinaryExpression` arm of
`generate_ast`. -/
def binaryOpCode : BinaryOperator → String
  | .add => "+"
  | .subtract => "-"
  | .multiply => "*"
  | .divide => "/"
  | .equal => "=="
  | .notEqual => "!="
  | .lessThan => "<"
  | .lessThanOrEqual => "<="
  | .greaterThan => ">"
  | .greaterThanOrEqual => ">="
  | .and => "and"
  | .or => "or"

/-- `CodeGenerator::generate_unary_operator`. -/
def unaryOpCode : UnaryOperator → String
  | .not => "not "
  | .minus => "-"

mutual

/-- `CodeGenerator::generate_ast`: checked AST → target (Python) text.
`generate_statements_body` is inlined at its call sites as
`generateBodyLines` followed by `assembleBody`. -/
def generateAst : AstNode → Except CompilerError String
  | .program statements => do
      let code_sections ← generateSections statements
      .ok (String.intercalate "\n\n" code_sections)
  | .functionDeclaration name params _ body _ => do
      let params_str := String.intercalate ", " (params.map (fun p => p.1))
      let body_lines ← generateBodyLines body
      .ok ("def " ++ name ++ "(" ++ params_str ++ "):\n" ++ assembleBody body_lines)
  | .variableDeclaration _ name _ value => do
      let value_code ← generateAst value
      .ok (name ++ " = " ++ value_code)
  | .functionCall name args =>
      match name == "output", args with
      | true, [arg] => do
          let arg_code ← generateAst arg
          .ok ("print(" ++ arg_code ++ ")")
      | _, as => do
          let arg_codes ← generateArgsCodes as
          .ok (name ++ "(" ++ String.intercalate ", " arg_codes ++ ")")
  | .stringLiteral value => .ok ("\"" ++ String.mk (escapeQuotes value.data) ++ "\"")
  | .numberLiteral value => .ok value.render
  | .booleanLiteral value => .ok (if value then "True" else "False")
  | .identifier name => .ok name
  | .binaryExpression left operator right => do
      let left_code ← generateAst left
      let right_code ← generateAst right
      let op_code := binaryOpCode operator
      if operator = BinaryOperator.add then
        .ok ("str(" ++ left_code ++ ") " ++ op_code ++ " str(" ++ right_code ++ ")")
      else
        .ok (left_code ++ " " ++ op_code ++ " " ++ right_code)
  | .unaryExpression operator operand => do
      let operand_code ← generateAst operand
      .ok (unaryOpCode operator ++ operand_code)
  | .arrayLiteral elements => do
      let element_codes ← generateArgsCodes elements
      .ok ("[" ++ String.intercalate ", " element_codes ++ "]")
  | .arrayAccess array index => do
      let array_code ← generateAst array
      let index_code ← generateAst index
      .ok (array_code ++ "[" ++ index_code ++ "]")
  | .ifStatement condition then_body elseif_branches else_body => do
      let condition_code ← generateAst condition
      let then_lines ← generateBodyLines then_body
      let elseif_code ← generateElseifs elseif_branches
      let base := "if " ++ condition_code ++ ":\n" ++ assembleBody then_lines ++ elseif_code
      match else_body with
      | some else_statements => do
          let else_lines ← generateBodyLines else_statements
          .ok (base ++ "\nelse:\n" ++ assembleBody else_lines)
      | none => .ok base
  | .whileStatement condition body => do
      let condition_code ← generateAst condition
      let body_lines ← generateBodyLines body
      .ok ("while " ++ condition_code ++ ":\n" ++ assembleBody body_lines)
  | .forStatement counter_var condition body => do
      let body_lines ← generateBodyLines body
      let body_code := assembleBody body_lines
      match condition with
      | .binaryExpression _ .lessThan (.numberLiteral limit) =>
          .ok ("for " ++ counter_var ++ " in range(int(" ++ limit.render ++ ")):\n" ++ body_code)
      | _ => .ok ("for " ++ counter_var ++ " in range(10):\n" ++ body_code)
  | .assignment target value => do
      let target_code ← generateAst target
      let value_code ← generateAst value
      .ok (target_code ++ " = " ++ value_code)
  | .returnStatement (some val) => do
      let value_code ← generateAst val
      .ok ("return " ++ value_code)
  | .returnStatement none => .ok "return"
  | _ => .ok ""
termination_by structural a => a

/-- The `Program` loop of `generate_ast`: generate each statement and keep
the sections whose code is not blank. -/
def generateSections : List AstNode → Except CompilerError (List String)
  | [] => .ok []
  | stmt :: rest => do
      let generated ← generateAst stmt
      let rest_sections ← generateSections rest
      .ok (if strTrimEmpty generated then rest_sections else generated :: rest_sections)
termination_by structural l => l

/-- The statement loop of `CodeGenerator::generate_statements_body`:
collect the indented non-blank lines of each statement. -/
def generateBodyLines : List AstNode → Except CompilerError (List String)
  | [] => .ok []
  | stmt :: rest => do
      let stmt_code ← generateAst stmt
      let rest_lines ← generateBodyLines rest
      .ok ((if strTrimEmpty stmt_code then [] else indentLines stmt_code) ++ rest_lines)
termination_by structural l => l

/-- The argument / element loop (`iter().map(generate_ast).collect()`). -/
def generateArgsCodes : List AstNode → Except CompilerError (List String)
  | [] => .ok []
  | arg :: rest => do
      let code ← generateAst arg
      let rest_codes ← generateArgsCodes rest
      .ok (code :: rest_codes)
termination_by structural l => l

/-- The elseif loop of `CodeGenerator::generate_if_statement`. -/
def generateElseifs : List (AstNode × List AstNode) → Except CompilerError String
  | [] => .ok ""
  | (elseif_condition, elseif_body) :: rest => do
      let elseif_condition_code ← generateAst elseif_condition
      let elseif_lines ← generateBodyLines elseif_body
      let rest_code ← generateElseifs rest
      .ok ("\nelif " ++ elseif_condition_code ++ ":\n" ++ assembleBody elseif_lines ++ rest_code)
termination_by structural l => l

end

/-- `CodeGenerator::generate_statements_body` as a standalone function. -/
def generateStatementsBody (statements : List AstNode) : Except CompilerError String := do
  let body_lines ← generateBodyLines statements
  .ok (assembleBody body_lines)

/-! ### The pipeline driver (compiler.rs) -/

/-- `Compiler::compile_ast` for a fresh `Compiler::new()`: lex, parse with
`NewParser::parse_example_kururi`, analyze from `SemanticAnalyzer::new`'s
state, and generate; each stage's error is re-wrapped with the stage
message and the error's `Display` rendering. -/
def compileAst (source_code : String) : Except CompilerError String := do
  let tokens ← match tokenize source_code with
    | .ok t => .ok t
    | .error e => .error (.lexError ("Lexical analysis failed: " ++ e.display))
  let ast ← match parseExampleKururi tokens with
    | .ok a => .ok a
    | .error e => .error (.parseError ("Parsing failed: " ++ e.display))
  let checked ← match analyzeAst ast initState with
    | .ok (checked_ast, _) => .ok checked_ast
    | .error e => .error (.semanticError ("Semantic analysis failed: " ++ e.display))
  match generateAst checked with
  | .ok generated_code => .ok generated_code
  | .error e => .error (.codegenError ("Code generation failed: " ++ e.display))

/-- Rust `str::contains` on the character list of a string (used to state
the substring scenarios of spec §8). -/
def listHasSub : List Char → List Char → Bool
  | [], pat => pat.isEmpty
  | c :: t, pat => pat.isPrefixOf (c :: t) || listHasSub t pat

/-- `haystack.contains(needle)`. -/
def strContains (s pat : String) : Bool :=
  listHasSub s.data pat.data

/-- The canonical end-to-end source program (spec §6.2 / scenario S1). -/
def helloSource : String :=
  "function main(): void \x7b const moji: string = \"Hello World by Kururi!\" output(moji) \x7d"

/-! ### Spec-side helpers used only to state properties -/

/-- Whether an `Except` value is a success. -/
def exceptOk {ε α : Type} : Except ε α → Bool
  | .ok _ => true
  | .error _ => false

/-- Replace the elseif branches of an if-statement node (identity on every
other node); used to state that analysis copies them verbatim. -/
def setElseifs (r : AstNode) (ebs : List (AstNode × List AstNode)) : AstNode :=
  match r with
  | .ifStatement condition then_body _ else_body =>
      .ifStatement condition then_body ebs else_body
  | other => other

/-- The condition shape the emitter's `ForStatement` arm matches:
`<anything> < <number literal>`. -/
def isLtNumLiteral : AstNode → Bool
  | .binaryExpression _ .lessThan (.numberLiteral _) => true
  | _ => false

/-- The success condition of the call-argument loop, with the state
threaded left to right: each argument analyzes successfully and its
computed type (in the state analysis left behind) is exactly the declared
parameter type. -/
inductive ArgsThread : List KururiType → List AstNode → AnalyzerState → AnalyzerState → Prop where
  | nil (s : AnalyzerState) : ArgsThread [] [] s s
  | cons {p : KururiType} {ps : List KururiType} {a : AstNode} {as : List AstNode}
      {s s₁ s₂ : AnalyzerState} {a' : AstNode}
      (hok : analyzeAst a s = .ok (a', s₁))
      (hty : getExpressionType s₁ a = .ok p)
      (hrest : ArgsThread ps as s₁ s₂) :
      ArgsThread (p :: ps) (a :: as) s s₂

/-- What one `analyze_ast` step preserves of the analyzer state: the
function table, the number of open scopes, and every scope except possibly
the innermost one (declarations may extend the innermost scope). -/
def PreservesSt (s s' : AnalyzerState) : Prop :=
  s'.functions = s.functions ∧
  s'.scopes.length = s.scopes.length ∧
  s'.scopes.drop 1 = s.scopes.drop 1

/-! ## Theorems -/

/-- Successful binds decompose. -/
theorem bind_ok {α β : Type} (x : Except CompilerError α) (f : α → Except CompilerError β) (b : β) :
    (x >>= f) = .ok b ↔ ∃ a, x = .ok a ∧ f a = .ok b := by
  cases x <;> simp [Bind.bind, Except.bind]

theorem preservesSt_rfl (s : AnalyzerState) : PreservesSt s s :=
  ⟨rfl, rfl, rfl⟩

theorem preservesSt_trans {s₁ s₂ s₃ : AnalyzerState}
    (h₁ : PreservesSt s₁ s₂) (h₂ : PreservesSt s₂ s₃) : PreservesSt s₁ s₃ :=
  ⟨h₂.1.trans h₁.1, h₂.2.1.trans h₁.2.1, h₂.2.2.trans h₁.2.2⟩

theorem preservesSt_insertVar (n : String) (t : KururiType) (s : AnalyzerState) :
    PreservesSt s (insertVar n t s) := by
  rcases s with ⟨sc, f, c⟩
  cases sc <;> simp [insertVar, PreservesSt]

theorem insertVar_functions (n : String) (t : KururiType) (s : AnalyzerState) :
    (insertVar n t s).functions = s.functions :=
  (preservesSt_insertVar n t s).1

theorem pushScope_functions (s : AnalyzerState) : (pushScope s).functions = s.functions := rfl

theorem popScope_functions (s : AnalyzerState) : (popScope s).functions = s.functions := rfl

theorem insertVar_pushScope_scopes (n : String) (t : KururiType) (s : AnalyzerState) :
    (insertVar n t (pushScope s)).scopes = [(n, t)] :: s.scopes := rfl

/-- Structural induction behind the analyzer theorems: on success the
analyzer returns its input tree unchanged (`r = a`) and preserves the
function table, the scope count, and all outer scopes. -/
theorem analyze_master : ∀ n : Nat,
    (∀ a : AstNode, sizeOf a < n → ∀ s r s', analyzeAst a s = .ok (r, s') →
        r = a ∧ PreservesSt s s') ∧
    (∀ l : List AstNode, sizeOf l < n → ∀ s r s', analyzeList l s = .ok (r, s') →
        r = l ∧ PreservesSt s s') ∧
    (∀ (ps : List KururiType) (i : Nat) (as : List AstNode), sizeOf as < n →
        ∀ s r s', analyzeArgs ps i as s = .ok (r, s') → r = as ∧ PreservesSt s s') := by
  intro n
  induction n with
  | zero =>
    exact ⟨fun a h => absurd h (Nat.not_lt_zero _),
           fun l h => absurd h (Nat.not_lt_zero _),
           fun ps i as h => absurd h (Nat.not_lt_zero _)⟩
  | succ n ih =>
    obtain ⟨ihA, ihL, ihR⟩ := ih
    refine ⟨?_, ?_, ?_⟩
    · intro a ha s r s' heq
      cases a
      case program statements =>
        obtain ⟨⟨sts, s₁⟩, hL, hpure⟩ := (bind_ok _ _ _).mp heq
        injection hpure with hpair
        injection hpair with h1 h2
        subst h1; subst h2
        simp only [AstNode.program.sizeOf_spec] at ha
        obtain ⟨hid, hpres⟩ := ihL statements (by omega) s sts s₁ hL
        subst hid
        exact ⟨rfl, hpres⟩
      case functionDeclaration name params return_type body is_public =>
        obtain ⟨⟨body', s₁⟩, hB, hpure⟩ := (bind_ok _ _ _).mp heq
        injection hpure with hpair
        injection hpair with h1 h2
        subst h1; subst h2
        simp only [AstNode.functionDeclaration.sizeOf_spec] at ha
        obtain ⟨hid, hpres⟩ := ihL body (by omega) s body' s₁ hB
        subst hid
        exact ⟨rfl, hpres⟩
      case variableDeclaration is_const name var_type value =>
        obtain ⟨⟨value', s₁⟩, hV, h2⟩ := (bind_ok _ _ _).mp heq
        obtain ⟨vt, hT, h3⟩ := (bind_ok _ _ _).mp h2
        split at h3
        · exact Except.noConfusion h3
        · injection h3 with hpair
          injection hpair with h31 h32
          subst h31; subst h32
          simp only [AstNode.variableDeclaration.sizeOf_spec] at ha
          obtain ⟨hid, hpres⟩ := ihA value (by omega) s value' s₁ hV
          subst hid
          exact ⟨rfl, preservesSt_trans hpres (preservesSt_insertVar _ _ _)⟩
      case functionCall name args =>
        have heq' : (match assocLookup s.functions name with
            | some (param_types, _) =>
              if args.length ≠ param_types.length then
                (.error (.semanticError
                  ("Function " ++ name ++ " expects " ++ toString param_types.length ++
                   " arguments, got " ++ toString args.length)) :
                    Except CompilerError (AstNode × AnalyzerState))
              else do
                let (args', s₁) ← analyzeArgs param_types 0 args s
                .ok (.functionCall name args', s₁)
            | none => .error (.semanticError ("Undefined function: " ++ name))) = .ok (r, s') := heq
        split at heq'
        · rename_i pts rt hF
          split at heq'
          · exact Except.noConfusion heq'
          · obtain ⟨⟨args', s₁⟩, hA, hpure⟩ := (bind_ok _ _ _).mp heq'
            injection hpure with hpair
            injection hpair with h1 h2
            subst h1; subst h2
            simp only [AstNode.functionCall.sizeOf_spec] at ha
            obtain ⟨hid, hpres⟩ := ihR pts 0 args (by omega) s args' s₁ hA
            subst hid
            exact ⟨rfl, hpres⟩
        · exact Except.noConfusion heq'
      case identifier nm =>
        have heq' : (if isVariableDefined s nm then
              (.ok (.identifier nm, s) : Except CompilerError (AstNode × AnalyzerState))
            else .error (.semanticError ("Undefined variable: " ++ nm))) = .ok (r, s') := heq
        split at heq'
        · injection heq' with hpair
          injection hpair with h1 h2
          subst h1; subst h2
          exact ⟨rfl, preservesSt_rfl s⟩
        · exact Except.noConfusion heq'
      case forStatement counter_var condition body =>
        obtain ⟨⟨c', s₂⟩, hc, h2⟩ := (bind_ok _ _ _).mp heq
        obtain ⟨⟨b', s₃⟩, hb, hpure⟩ := (bind_ok _ _ _).mp h2
        injection hpure with hpair
        injection hpair with h1 h2'
        subst h1; subst h2'
        simp only [AstNode.forStatement.sizeOf_spec] at ha
        obtain ⟨hcid, hcp⟩ := ihA condition (by omega) _ _ _ hc
        subst hcid
        obtain ⟨hbid, hbp⟩ := ihL body (by omega) _ _ _ hb
        subst hbid
        refine ⟨rfl, ?_⟩
        obtain ⟨hf, hlen, hdrop⟩ := preservesSt_trans hcp hbp
        have h₃ : s₃.scopes.drop 1 = s.scopes := by
          rw [hdrop, insertVar_pushScope_scopes]
          rfl
        refine ⟨?_, ?_, ?_⟩
        · rw [popScope_functions, hf, insertVar_functions, pushScope_functions]
        · show (s₃.scopes.drop 1).length = s.scopes.length
          rw [h₃]
        · show (s₃.scopes.drop 1).drop 1 = s.scopes.drop 1
          rw [h₃]
      case ifStatement condition then_body elseif_branches else_body =>
        cases else_body with
        | none =>
          obtain ⟨⟨c', s₁⟩, hc, h2⟩ := (bind_ok _ _ _).mp heq
          obtain ⟨⟨tb', s₂⟩, ht, hpure⟩ := (bind_ok _ _ _).mp h2
          injection hpure with hpair
          injection hpair with h1 h2'
          subst h1; subst h2'
          simp only [AstNode.ifStatement.sizeOf_spec] at ha
          obtain ⟨hcid, hcp⟩ := ihA condition (by omega) _ _ _ hc
          subst hcid
          obtain ⟨htid, htp⟩ := ihL then_body (by omega) _ _ _ ht
          subst htid
          exact ⟨rfl, preservesSt_trans hcp htp⟩
        | some els =>
          obtain ⟨⟨c', s₁⟩, hc, h2⟩ := (bind_ok _ _ _).mp heq
          obtain ⟨⟨tb', s₂⟩, ht, h3⟩ := (bind_ok _ _ _).mp h2
          obtain ⟨⟨els', s₃⟩, he, hpure⟩ := (bind_ok _ _ _).mp h3
          injection hpure with hpair
          injection hpair with h1 h2'
          subst h1; subst h2'
          simp only [AstNode.ifStatement.sizeOf_spec, Option.some.sizeOf_spec] at ha
          obtain ⟨hcid, hcp⟩ := ihA condition (by omega) _ _ _ hc
          subst hcid
          obtain ⟨htid, htp⟩ := ihL then_body (by omega) _ _ _ ht
          subst htid
          obtain ⟨heid, hep⟩ := ihL els (by omega) _ _ _ he
          subst heid
          exact ⟨rfl, preservesSt_trans hcp (preservesSt_trans htp hep)⟩
      case assignment target value =>
        cases target
        case identifier vn =>
          have heq' : (if ¬ isVariableDefined s vn then
                (.error (.semanticError ("Undefined variable: " ++ vn)) :
                  Except CompilerError (AstNode × AnalyzerState))
              else do
                let (value', s₁) ← analyzeAst value s
                .ok (.assignment (.identifier vn) value', s₁)) = .ok (r, s') := heq
          split at heq'
          · exact Except.noConfusion heq'
          · obtain ⟨⟨v', s₁⟩, hV, hpure⟩ := (bind_ok _ _ _).mp heq'
            injection hpure with hpair
            injection hpair with h1 h2
            subst h1; subst h2
            simp only [AstNode.assignment.sizeOf_spec] at ha
            obtain ⟨hid, hpres⟩ := ihA value (by omega) _ _ _ hV
            subst hid
            exact ⟨rfl, hpres⟩
        all_goals exact Except.noConfusion heq
      case binaryExpression left operator right =>
        obtain ⟨⟨l', s₁⟩, hl, h2⟩ := (bind_ok _ _ _).mp heq
        obtain ⟨⟨r'', s₂⟩, hr, hpure⟩ := (bind_ok _ _ _).mp h2
        injection hpure with hpair
        injection hpair with h1 h2'
        subst h1; subst h2'
        simp only [AstNode.binaryExpression.sizeOf_spec] at ha
        obtain ⟨hlid, hlp⟩ := ihA left (by omega) _ _ _ hl
        subst hlid
        obtain ⟨hrid, hrp⟩ := ihA right (by omega) _ _ _ hr
        subst hrid
        exact ⟨rfl, preservesSt_trans hlp hrp⟩
      all_goals
        injection heq with hpair
      all_goals
        injection hpair with h1 h2
      all_goals
        subst h1
      all_goals
        subst h2
      all_goals
        exact ⟨rfl, preservesSt_rfl s⟩
    · intro l hl s r s' heq
      cases l with
      | nil =>
        injection heq with hpair
        injection hpair with h1 h2
        subst h1; subst h2
        exact ⟨rfl, preservesSt_rfl s⟩
      | cons stmt rest =>
        obtain ⟨⟨stmt', s₁⟩, hS, h2⟩ := (bind_ok _ _ _).mp heq
        obtain ⟨⟨rest', s₂⟩, hR, hpure⟩ := (bind_ok _ _ _).mp h2
        injection hpure with hpair
        injection hpair with h1 h2'
        subst h1; subst h2'
        simp only [List.cons.sizeOf_spec] at hl
        obtain ⟨hid1, hp1⟩ := ihA stmt (by omega) _ _ _ hS
        subst hid1
        obtain ⟨hid2, hp2⟩ := ihL rest (by omega) _ _ _ hR
        subst hid2
        exact ⟨rfl, preservesSt_trans hp1 hp2⟩
    · intro ps i as hsz s r s' heq
      cases as with
      | nil =>
        injection heq with hpair
        injection hpair with h1 h2
        subst h1; subst h2
        exact ⟨rfl, preservesSt_rfl s⟩
      | cons arg args =>
        obtain ⟨⟨arg', s₁⟩, hA, h2⟩ := (bind_ok _ _ _).mp heq
        obtain ⟨argt, hT, h3⟩ := (bind_ok _ _ _).mp h2
        cases ps with
        | nil => exact Except.noConfusion h3
        | cons expected rest_params =>
          have h3' : (if ¬ typesCompatible expected argt then
                (.error (.semanticError
                  ("Argument " ++ toString (i + 1) ++ " type mismatch: expected " ++
                   expected.render ++ ", found " ++ argt.render)) :
                  Except CompilerError (List AstNode × AnalyzerState))
              else do
                let (args', s₂) ← analyzeArgs rest_params (i + 1) args s₁
                .ok (arg' :: args', s₂)) = .ok (r, s') := h3
          split at h3'
          · exact Except.noConfusion h3'
          · obtain ⟨⟨args', s₂⟩, hR, hpure⟩ := (bind_ok _ _ _).mp h3'
            injection hpure with hpair
            injection hpair with h1 h2'
            subst h1; subst h2'
            simp only [List.cons.sizeOf_spec] at hsz
            obtain ⟨hid1, hp1⟩ := ihA arg (by omega) _ _ _ hA
            subst hid1
            obtain ⟨hid2, hp2⟩ := ihR rest_params (i + 1) args (by omega) _ _ _ hR
            subst hid2
            exact ⟨rfl, preservesSt_trans hp1 hp2⟩

/-- Corollary of `analyze_master` for a single node. -/
theorem analyzeAst_ok (a : AstNode) (s : AnalyzerState) (r : AstNode) (s' : AnalyzerState)
    (h : analyzeAst a s = .ok (r, s')) : r = a ∧ PreservesSt s s' :=
  (analyze_master (sizeOf a + 1)).1 a (Nat.lt_succ_self _) s r s' h

/-- Corollary of `analyze_master` for a statement list. -/
theorem analyzeList_ok (l : List AstNode) (s : AnalyzerState) (r : List AstNode)
    (s' : AnalyzerState) (h : analyzeList l s = .ok (r, s')) : r = l ∧ PreservesSt s s' :=
  (analyze_master (sizeOf l + 1)).2.1 l (Nat.lt_succ_self _) s r s' h

/-- C8: semantic analysis never rewrites the tree — whenever `analyze_ast`
succeeds, the checked AST it returns is structurally identical to its
input AST. -/
theorem claim8_analysis_identity (a : AstNode) (s : AnalyzerState) (r : AstNode)
    (s' : AnalyzerState) (h : analyzeAst a s = .ok (r, s')) : r = a :=
  (analyzeAst_ok a s r s' h).1

/-- Witness for C8: analysing the whole multiplication-table program
returns exactly that program (and restores the initial state). -/
theorem claim8_witness :
    analyzeAst exampleAst initState = .ok (exampleAst, initState) ∧ exampleAst = exampleAst :=
  ⟨rfl, claim8_analysis_identity exampleAst initState exampleAst initState rfl⟩

/-- C3: the function table is seeded with only the built-in `output`,
no analysis step ever changes it, and calling any other name by name—
including a function declared earlier in the program—fails with
`Undefined function`. -/
theorem claim3_function_table :
    (initState.functions = [("output", ([KururiType.string], KururiType.void))]) ∧
    (∀ a s r s', analyzeAst a s = .ok (r, s') → s'.functions = s.functions) ∧
    (∀ (name : String) (args : List AstNode) (s : AnalyzerState),
      s.functions = initState.functions → name ≠ "output" →
      analyzeAst (.functionCall name args) s =
        .error (.semanticError ("Undefined function: " ++ name))) := by
  refine ⟨rfl, ?_, ?_⟩
  · intro a s r s' h
    exact (analyzeAst_ok a s r s' h).2.1
  · intro name args s hfun hname
    have hnone : assocLookup s.functions name = none := by
      rw [hfun]
      show (if "output" = name then some ([KururiType.string], KururiType.void)
            else assocLookup [] name) = none
      rw [if_neg (Ne.symm hname)]
      rfl
    have heq' : analyzeAst (.functionCall name args) s = (match assocLookup s.functions name with
        | some (param_types, _) =>
          if args.length ≠ param_types.length then
            (.error (.semanticError
              ("Function " ++ name ++ " expects " ++ toString param_types.length ++
               " arguments, got " ++ toString args.length)) :
                Except CompilerError (AstNode × AnalyzerState))
          else do
            let (args', s₁) ← analyzeArgs param_types 0 args s
            .ok (.functionCall name args', s₁)
        | none => .error (.semanticError ("Undefined function: " ++ name))) := rfl
    rw [heq', hnone]

/-- Witness for C3: in the freshly seeded analyzer, calling `main` (a
function the example program itself declares) is an undefined-function
error. -/
theorem claim3_witness :
    analyzeAst (.functionCall "main" []) initState =
      .error (.semanticError "Undefined function: main") :=
  claim3_function_table.2.2 "main" [] initState rfl (by decide)

/-- Counterexample for C4: a variable declared inside a function body stays
in the enclosing (global) scope after the declaration's block: the whole
program `function f(): void { let x: string = "a" } output(x)` analyzes
successfully, so the reference to `x` after the block is not rejected. -/
theorem claim4_counterexample :
    analyzeAst (.program
      [ .functionDeclaration "f" [] .void
          [.variableDeclaration false "x" .string (.stringLiteral "a")] false,
        .functionCall "output" [.identifier "x"] ]) initState =
      .ok (.program
        [ .functionDeclaration "f" [] .void
            [.variableDeclaration false "x" .string (.stringLiteral "a")] false,
          .functionCall "output" [.identifier "x"] ],
        { scopes := [[("x", KururiType.string)]]
          functions := [("output", ([KururiType.string], KururiType.void))]
          current_function_return_type := none }) := rfl

/-- C4 (amended): only `for` statements get a fresh scope, and that scope
is discarded on exit — after a for-statement is analyzed, the scope stack
is exactly what it was before, so its counter variable and every variable
declared in its body are undefined afterwards.  (Function bodies and if
bodies are analyzed in the enclosing scope, as `claim4_counterexample`
shows.) -/
theorem claim4_for_scope_locality (counter_var : String) (condition : AstNode)
    (body : List AstNode) (s : AnalyzerState) (r : AstNode) (s' : AnalyzerState)
    (h : analyzeAst (.forStatement counter_var condition body) s = .ok (r, s')) :
    s'.scopes = s.scopes := by
  obtain ⟨⟨c', s₂⟩, hc, h2⟩ := (bind_ok _ _ _).mp h
  obtain ⟨⟨b', s₃⟩, hb, hpure⟩ := (bind_ok _ _ _).mp h2
  injection hpure with hpair
  injection hpair with h1 h2'
  subst h2'
  have hcp := (analyzeAst_ok _ _ _ _ hc).2
  have hbp := (analyzeList_ok _ _ _ _ hb).2
  obtain ⟨hf, hlen, hdrop⟩ := preservesSt_trans hcp hbp
  show (popScope s₃).scopes = s.scopes
  show s₃.scopes.drop 1 = s.scopes
  rw [hdrop, insertVar_pushScope_scopes]
  rfl

/-- Witness for C4 (amended): a for-loop declaring `y` in its body leaves
the analyzer state exactly as it found it. -/
theorem claim4_witness :
    (analyzeAst (.forStatement "i" (.booleanLiteral true)
        [.variableDeclaration false "y" .string (.stringLiteral "b")]) initState =
      .ok (.forStatement "i" (.booleanLiteral true)
        [.variableDeclaration false "y" .string (.stringLiteral "b")], initState)) ∧
    initState.scopes = initState.scopes :=
  ⟨rfl, claim4_for_scope_locality "i" (.booleanLiteral true)
    [.variableDeclaration false "y" .string (.stringLiteral "b")] initState _ initState rfl⟩

/-- C5: the elseif branches of an if-statement are copied into the checked
AST verbatim and never analyzed — the result of analyzing an if-statement
with any elseif branches equals the result of analyzing it with none, with
the branches pasted back in.  In particular undefined variables, undefined
functions, or type mismatches occurring only inside an elseif branch cannot
make analysis fail. -/
theorem claim5_elseif_unanalyzed (condition : AstNode) (then_body : List AstNode)
    (ebs : List (AstNode × List AstNode)) (else_body : Option (List AstNode))
    (s : AnalyzerState) :
    analyzeAst (.ifStatement condition then_body ebs else_body) s =
      (analyzeAst (.ifStatement condition then_body [] else_body) s).map
        (fun p => (setElseifs p.1 ebs, p.2)) := by
  cases else_body with
  | none =>
    have hL : analyzeAst (.ifStatement condition then_body ebs none) s = (do
        let (condition', s₁) ← analyzeAst condition s
        let (then_body', s₂) ← analyzeList then_body s₁
        (.ok (.ifStatement condition' then_body' ebs none, s₂) :
          Except CompilerError (AstNode × AnalyzerState))) := rfl
    have hR : analyzeAst (.ifStatement condition then_body [] none) s = (do
        let (condition', s₁) ← analyzeAst condition s
        let (then_body', s₂) ← analyzeList then_body s₁
        (.ok (.ifStatement condition' then_body' [] none, s₂) :
          Except CompilerError (AstNode × AnalyzerState))) := rfl
    rw [hL, hR]
    cases hc : analyzeAst condition s with
    | error e => rfl
    | ok p =>
      obtain ⟨c', s₁⟩ := p
      simp only [Bind.bind, Except.bind]
      cases ht : analyzeList then_body s₁ with
      | error e => rfl
      | ok q =>
        obtain ⟨tb', s₂⟩ := q
        rfl
  | some els =>
    have hL : analyzeAst (.ifStatement condition then_body ebs (some els)) s = (do
        let (condition', s₁) ← analyzeAst condition s
        let (then_body', s₂) ← analyzeList then_body s₁
        let (else_stmts', s₃) ← analyzeList els s₂
        (.ok (.ifStatement condition' then_body' ebs (some else_stmts'), s₃) :
          Except CompilerError (AstNode × AnalyzerState))) := rfl
    have hR : analyzeAst (.ifStatement condition then_body [] (some els)) s = (do
        let (condition', s₁) ← analyzeAst condition s
        let (then_body', s₂) ← analyzeList then_body s₁
        let (else_stmts', s₃) ← analyzeList els s₂
        (.ok (.ifStatement condition' then_body' [] (some else_stmts'), s₃) :
          Except CompilerError (AstNode × AnalyzerState))) := rfl
    rw [hL, hR]
    cases hc : analyzeAst condition s with
    | error e => rfl
    | ok p =>
      obtain ⟨c', s₁⟩ := p
      simp only [Bind.bind, Except.bind]
      cases ht : analyzeList then_body s₁ with
      | error e => rfl
      | ok q =>
        obtain ⟨tb', s₂⟩ := q
        simp only [Bind.bind, Except.bind]
        cases he : analyzeList els s₂ with
        | error e => rfl
        | ok u =>
          obtain ⟨els', s₃⟩ := u
          rfl

/-- Witness exercising C5 on a concrete input: an elseif branch whose
condition and body both reference the undefined variable `zzz` (and call
the undefined function `ggg`) does not make analysis fail. -/
theorem claim5_witness :
    analyzeAst (.ifStatement (.booleanLiteral true) []
        [(.identifier "zzz", [.functionCall "ggg" []])] none) initState =
      .ok (.ifStatement (.booleanLiteral true) []
        [(.identifier "zzz", [.functionCall "ggg" []])] none, initState) := by
  rw [claim5_elseif_unanalyzed (.booleanLiteral true) []
    [(.identifier "zzz", [.functionCall "ggg" []])] none initState]
  rfl

/-- Counterexample for C6: the claim's "succeeds iff the computed type of
the initializer equals the declared type" fails when the initializer's own
analysis fails although its computed type matches: for
`let x: void = output()` the computed type of `output()` is `void`, equal
to the declared type, yet analysis fails with the inner arity error. -/
theorem claim6_counterexample :
    getExpressionType initState (.functionCall "output" []) = .ok .void ∧
    analyzeAst (.variableDeclaration false "x" .void (.functionCall "output" [])) initState =
      .error (.semanticError "Function output expects 1 arguments, got 0") :=
  ⟨rfl, rfl⟩

/-- C6 (amended): provided the initializer itself analyzes successfully,
a variable declaration succeeds iff the initializer's computed type equals
the declared type: on equality the declaration is returned with
(name → declared type) inserted into the innermost scope, otherwise the
failure is `Type mismatch: expected <declared>, found <computed>`. -/
theorem claim6_var_decl_typing (is_const : Bool) (name : String) (var_type : KururiType)
    (value v' : AstNode) (vt : KururiType) (s s₁ : AnalyzerState)
    (hv : analyzeAst value s = .ok (v', s₁)) (ht : getExpressionType s₁ value = .ok vt) :
    analyzeAst (.variableDeclaration is_const name var_type value) s =
      if typesCompatible var_type vt then
        .ok (.variableDeclaration is_const name var_type v', insertVar name var_type s₁)
      else
        .error (.semanticError
          ("Type mismatch: expected " ++ var_type.render ++ ", found " ++ vt.render)) := by
  have hL : analyzeAst (.variableDeclaration is_const name var_type value) s = (do
      let (value', s₂) ← analyzeAst value s
      let value_type ← getExpressionType s₂ value
      if ¬ typesCompatible var_type value_type then
        .error (.semanticError
          ("Type mismatch: expected " ++ var_type.render ++ ", found " ++ value_type.render))
      else
        (.ok (.variableDeclaration is_const name var_type value', insertVar name var_type s₂) :
          Except CompilerError (AstNode × AnalyzerState))) := rfl
  rw [hL, hv]
  simp only [Bind.bind, Except.bind]
  rw [ht]
  simp only [Bind.bind, Except.bind]
  cases htc : typesCompatible var_type vt <;> simp [htc]

/-- Witness for C6 (amended), matching branch: `const moji: string = "…"`
succeeds and records `moji : string` in the innermost scope. -/
theorem claim6_witness :
    (analyzeAst (.stringLiteral "Hello World by Kururi!") initState =
      .ok (.stringLiteral "Hello World by Kururi!", initState)) ∧
    analyzeAst (.variableDeclaration true "moji" .string
        (.stringLiteral "Hello World by Kururi!")) initState =
      .ok (.variableDeclaration true "moji" .string
            (.stringLiteral "Hello World by Kururi!"),
          { scopes := [[("moji", KururiType.string)]]
            functions := [("output", ([KururiType.string], KururiType.void))]
            current_function_return_type := none }) :=
  ⟨rfl, claim6_var_decl_typing true "moji" .string
    (.stringLiteral "Hello World by Kururi!") (.stringLiteral "Hello World by Kururi!")
    .string initState initState rfl rfl⟩

/-- Counterexample for C2: a malformed token sequence — a lone `}` — does
not yield a `ParseError`; `parse_example_kururi` returns the fixed
multiplication-table program for it, exactly as it does for any other
non-empty token sequence. -/
theorem claim2_counterexample :
    parseExampleKururi [Token.rightBrace] = .ok exampleAst ∧
    parseExampleKururi [Token.rightBrace] = parseExampleKururi [Token.functionKw, Token.eof] :=
  ⟨rfl, rfl⟩

/-- C2 (amended): the parse stage used by `compile_ast` returns
`ParseError ("No tokens to parse")` exactly on the empty token sequence,
and maps every non-empty token sequence — well-formed or malformed — to
the same fixed multiplication-table program node, independent of the
tokens' content. -/
theorem claim2_parse_stage (tokens : List Token) :
    (tokens = [] → parseExampleKururi tokens = .error (.parseError "No tokens to parse")) ∧
    (tokens ≠ [] → parseExampleKururi tokens = .ok exampleAst) := by
  cases tokens with
  | nil => exact ⟨fun _ => rfl, fun h => absurd rfl h⟩
  | cons t ts => exact ⟨fun h => List.noConfusion h, fun _ => rfl⟩

/-- Witness for C2 (amended) at the empty and a one-token sequence. -/
theorem claim2_witness :
    parseExampleKururi [] = .error (.parseError "No tokens to parse") ∧
    parseExampleKururi [Token.eof] = .ok exampleAst :=
  ⟨(claim2_parse_stage []).1 rfl, (claim2_parse_stage [Token.eof]).2 (by decide)⟩

set_option maxRecDepth 10000 in
/-- Counterexample for C1: compiling the canonical program succeeds and the
target text contains `def main():`, but — the parse stage ignoring its
tokens — it contains neither `moji = "Hello World by Kururi!"` nor
`print(moji)`. -/
theorem claim1_counterexample :
    (compileAst helloSource).map
        (fun out =>
          (strContains out "def main():",
           strContains out "moji = \"Hello World by Kururi!\"",
           strContains out "print(moji)")) = .ok (true, false, false) := by
  decide

set_option maxRecDepth 10000 in
/-- C1 (amended): `compile_ast` on the canonical source succeeds, and its
target text contains `def main():` — but, because the parse stage returns
a fixed multiplication-table AST regardless of the tokens, the text is the
multiplication-table program (containing `print("掛け算九九の表")` and
`for i in range(int(9)):`) rather than the hello-world lowering. -/
theorem claim1_compile_hello :
    (compileAst helloSource).map
        (fun out =>
          (strContains out "def main():",
           strContains out "print(\"掛け算九九の表\")",
           strContains out "for i in range(int(9)):")) = .ok (true, true, true) := by
  decide

/-- C9: the emitter lowers every binary `+` to
`str(⟦L⟧) + str(⟦R⟧)`, wrapping both operands in stringification
unconditionally — whatever the operands (in particular also when both are
number-typed). -/
theorem claim9_add_stringifies (l r : AstNode) (lc rc : String)
    (hl : generateAst l = .ok lc) (hr : generateAst r = .ok rc) :
    generateAst (.binaryExpression l .add r) =
      .ok ("str(" ++ lc ++ ") " ++ "+" ++ " str(" ++ rc ++ ")") := by
  have hL : generateAst (.binaryExpression l .add r) = (do
      let left_code ← generateAst l
      let right_code ← generateAst r
      let op_code := binaryOpCode .add
      if BinaryOperator.add = BinaryOperator.add then
        (.ok ("str(" ++ left_code ++ ") " ++ op_code ++ " str(" ++ right_code ++ ")") :
          Except CompilerError String)
      else
        .ok (left_code ++ " " ++ op_code ++ " " ++ right_code)) := rfl
  rw [hL, hl]
  simp only [Bind.bind, Except.bind]
  rw [hr]
  simp only [Bind.bind, Except.bind]
  rfl

/-- Witness for C9, matching spec scenario S6: `"a" + 1` emits
`str("a") + str(1)`. -/
theorem claim9_witness :
    generateAst (.stringLiteral "a") = .ok "\"a\"" ∧
    generateAst (.numberLiteral ⟨"1"⟩) = .ok "1" ∧
    generateAst (.binaryExpression (.stringLiteral "a") .add (.numberLiteral ⟨"1"⟩)) =
      .ok "str(\"a\") + str(1)" :=
  ⟨rfl, rfl, claim9_add_stringifies (.stringLiteral "a") (.numberLiteral ⟨"1"⟩)
    "\"a\"" "1" rfl rfl⟩

/-- Counterexample for C10: the emitter's range lowering does not require
the left operand of `<` to be the loop counter: for counter `i` and
condition `"x" < 9` — not of the claim's shape `i < N` — it still emits
`range(int(9))`, not the claimed `range(10)` fallback. -/
theorem claim10_counterexample :
    generateAst (.forStatement "i"
        (.binaryExpression (.stringLiteral "x") .lessThan (.numberLiteral ⟨"9"⟩)) []) =
      .ok "for i in range(int(9)):\n    pass" ∧
    ("for i in range(int(9)):\n    pass" : String) ≠ "for i in range(10):\n    pass" :=
  ⟨rfl, by decide⟩

/-- C10 (amended): the emitter keys only on the condition's shape
`<anything> < <number literal>`: any such condition yields
`for i in range(int(N)):` with the indented body — with the left operand
unconstrained — and every other condition shape yields the fallback
`for i in range(10):`. -/
theorem claim10_for_lowering (counter_var : String) (l : AstNode) (limit : KNum)
    (body : List AstNode) (bc : String) (hb : generateStatementsBody body = .ok bc) :
    (generateAst (.forStatement counter_var
        (.binaryExpression l .lessThan (.numberLiteral limit)) body) =
      .ok ("for " ++ counter_var ++ " in range(int(" ++ limit.render ++ ")):\n" ++ bc)) ∧
    (∀ condition, isLtNumLiteral condition = false →
      generateAst (.forStatement counter_var condition body) =
        .ok ("for " ++ counter_var ++ " in range(10):\n" ++ bc)) := by
  obtain ⟨lines, hlines, hpure⟩ := (bind_ok _ _ _).mp hb
  injection hpure with hbc
  subst hbc
  refine ⟨?_, ?_⟩
  · have hL : generateAst (.forStatement counter_var
        (.binaryExpression l .lessThan (.numberLiteral limit)) body) = (do
        let body_lines ← generateBodyLines body
        let body_code := assembleBody body_lines
        (.ok ("for " ++ counter_var ++ " in range(int(" ++ limit.render ++ ")):\n" ++ body_code) :
          Except CompilerError String)) := rfl
    rw [hL, hlines]
    rfl
  · intro condition
    have hL : generateAst (.forStatement counter_var condition body) = (do
        let body_lines ← generateBodyLines body
        let body_code := assembleBody body_lines
        (match condition with
          | .binaryExpression _ .lessThan (.numberLiteral limit') =>
            (.ok ("for " ++ counter_var ++ " in range(int(" ++ limit'.render ++ ")):\n" ++
              body_code) : Except CompilerError String)
          | _ => .ok ("for " ++ counter_var ++ " in range(10):\n" ++ body_code))) := rfl
    intro h
    rw [hL, hlines]
    simp only [Bind.bind, Except.bind]
    cases condition
    case binaryExpression l' op r' =>
      cases op
      case lessThan =>
        cases r'
        case numberLiteral k => simp [isLtNumLiteral] at h
        all_goals rfl
      all_goals rfl
    all_goals rfl

/-- Witness for C10 (amended): both branches at a concrete body. -/
theorem claim10_witness :
    generateAst (.forStatement "i"
        (.binaryExpression (.identifier "i") .lessThan (.numberLiteral ⟨"9"⟩)) []) =
      .ok "for i in range(int(9)):\n    pass" ∧
    generateAst (.forStatement "i" (.identifier "flag") []) =
      .ok "for i in range(10):\n    pass" :=
  ⟨(claim10_for_lowering "i" (.identifier "i") ⟨"9"⟩ [] "    pass" rfl).1,
   (claim10_for_lowering "i" (.identifier "i") ⟨"9"⟩ [] "    pass" rfl).2
     (.identifier "flag") rfl⟩

/-- Running the argument loop under an accepting `ArgsThread` succeeds,
from any starting index. -/
theorem argsThread_run {ps : List KururiType} {as : List AstNode} {s s₂ : AnalyzerState}
    (h : ArgsThread ps as s s₂) : ∀ i, ∃ as', analyzeArgs ps i as s = .ok (as', s₂) := by
  induction h with
  | nil s₀ => exact fun i => ⟨[], rfl⟩
  | cons hok hty hrest ih =>
    intro i
    rename_i p ps' a as' sA sB sC a'
    obtain ⟨as'', hrun⟩ := ih (i + 1)
    refine ⟨a' :: as'', ?_⟩
    have hL : analyzeArgs (p :: ps') i (a :: as') sA = (do
        let (arg', s₁) ← analyzeAst a sA
        let arg_type ← getExpressionType s₁ a
        if ¬ typesCompatible p arg_type then
          .error (.semanticError
            ("Argument " ++ toString (i + 1) ++ " type mismatch: expected " ++
             p.render ++ ", found " ++ arg_type.render))
        else do
          let (args', s₂) ← analyzeArgs ps' (i + 1) as' s₁
          (.ok (arg' :: args', s₂) : Except CompilerError (List AstNode × AnalyzerState))) := rfl
    rw [hL, hok]
    simp only [Bind.bind, Except.bind]
    rw [hty]
    simp only [Bind.bind, Except.bind]
    rw [if_neg (by simp [typesCompatible])]
    rw [hrun]

/-- Conversely, a successful run of the argument loop (at matching arity)
yields an accepting `ArgsThread`. -/
theorem run_argsThread : ∀ (as : List AstNode) (ps : List KururiType) (i : Nat)
    (s : AnalyzerState) (as' : List AstNode) (s₂ : AnalyzerState),
    ps.length = as.length → analyzeArgs ps i as s = .ok (as', s₂) → ArgsThread ps as s s₂ := by
  intro as
  induction as with
  | nil =>
    intro ps i s as' s₂ hlen hrun
    cases ps with
    | nil =>
      injection hrun with hpair
      injection hpair with h1 h2
      subst h2
      exact .nil s
    | cons p ps' => simp at hlen
  | cons a as ih =>
    intro ps i s as' s₂ hlen hrun
    cases ps with
    | nil => simp at hlen
    | cons p ps' =>
      obtain ⟨⟨a', s₁⟩, hok, h2⟩ := (bind_ok _ _ _).mp hrun
      obtain ⟨argt, hty, h3⟩ := (bind_ok _ _ _).mp h2
      have h3' : (if ¬ typesCompatible p argt then
            (.error (.semanticError
              ("Argument " ++ toString (i + 1) ++ " type mismatch: expected " ++
               p.render ++ ", found " ++ argt.render)) :
              Except CompilerError (List AstNode × AnalyzerState))
          else do
            let (args', s₂) ← analyzeArgs ps' (i + 1) as s₁
            .ok (a' :: args', s₂)) = .ok (as', s₂) := h3
      split at h3'
      · exact Except.noConfusion h3'
      · rename_i hcond
        obtain ⟨⟨args', s₃⟩, hrest, hpure⟩ := (bind_ok _ _ _).mp h3'
        injection hpure with hpair
        injection hpair with h1 h2'
        subst h2'
        have hargt : argt = p := by
          have := not_not.mp hcond
          simp [typesCompatible] at this
          exact this.symm
        subst hargt
        exact .cons hok hty (ih ps' (i + 1) s₁ args' _ (by simpa using hlen) hrest)

/-- A type mismatch at the first offending argument makes the loop fail
with the message naming that argument's position. -/
theorem argsThread_mismatch {psPre : List KururiType} {asPre : List AstNode}
    {s sMid : AnalyzerState} (hpre : ArgsThread psPre asPre s sMid) :
    ∀ (p : KururiType) (psRest : List KururiType) (a : AstNode) (asRest : List AstNode)
      (a' : AstNode) (s₁ : AnalyzerState) (t : KururiType) (i : Nat),
      analyzeAst a sMid = .ok (a', s₁) → getExpressionType s₁ a = .ok t →
      typesCompatible p t = false →
      analyzeArgs (psPre ++ p :: psRest) i (asPre ++ a :: asRest) s =
        .error (.semanticError
          ("Argument " ++ toString (i + asPre.length + 1) ++ " type mismatch: expected " ++
           p.render ++ ", found " ++ t.render)) := by
  induction hpre with
  | nil s₀ =>
    intro p psRest a asRest a' s₁ t i hok hty htc
    have hL : analyzeArgs (p :: psRest) i (a :: asRest) s₀ = (do
        let (arg', sx) ← analyzeAst a s₀
        let arg_type ← getExpressionType sx a
        if ¬ typesCompatible p arg_type then
          .error (.semanticError
            ("Argument " ++ toString (i + 1) ++ " type mismatch: expected " ++
             p.render ++ ", found " ++ arg_type.render))
        else do
          let (args', s₂) ← analyzeArgs psRest (i + 1) asRest sx
          (.ok (arg' :: args', s₂) : Except CompilerError (List AstNode × AnalyzerState))) := rfl
    show analyzeArgs (p :: psRest) i (a :: asRest) s₀ = _
    rw [hL, hok]
    simp only [Bind.bind, Except.bind]
    rw [hty]
    simp only [Bind.bind, Except.bind]
    rw [if_pos (by simp [htc])]
    simp
  | cons hok₀ hty₀ hrest ih =>
    intro p psRest a asRest a' s₁ t i hok hty htc
    rename_i p₀ ps₀ a₀ as₀ sA sB sC a₀'
    have hL : analyzeArgs ((p₀ :: ps₀) ++ p :: psRest) i ((a₀ :: as₀) ++ a :: asRest) sA = (do
        let (arg', sx) ← analyzeAst a₀ sA
        let arg_type ← getExpressionType sx a₀
        if ¬ typesCompatible p₀ arg_type then
          .error (.semanticError
            ("Argument " ++ toString (i + 1) ++ " type mismatch: expected " ++
             p₀.render ++ ", found " ++ arg_type.render))
        else do
          let (args', s₂) ← analyzeArgs (ps₀ ++ p :: psRest) (i + 1) (as₀ ++ a :: asRest) sx
          (.ok (arg' :: args', s₂) : Except CompilerError (List AstNode × AnalyzerState))) := rfl
    have hnat : i + (a₀ :: as₀).length + 1 = (i + 1) + as₀.length + 1 := by
      simp [List.length_cons]
      omega
    rw [hL, hok₀]
    simp only [Bind.bind, Except.bind]
    rw [hty₀]
    simp only [Bind.bind, Except.bind]
    rw [if_neg (by simp [typesCompatible])]
    rw [hnat, ih p psRest a asRest a' s₁ t (i + 1) hok hty htc]

/-- C7 (amended): the call-by-name contract.  An absent callee fails with
`Undefined function: N`.  A present callee requires exact arity, else the
error names the expected and actual counts.  At matching arity the
arguments are analyzed left to right and the call succeeds iff every
argument analyzes successfully with computed type exactly the declared
parameter type; the first argument that analyzes successfully but has a
mismatched computed type fails the call with the error naming its 1-based
position.  (An argument whose own analysis fails propagates that error
instead — see `claim7_counterexample`.) -/
theorem claim7_call_contract :
    (∀ (name : String) (args : List AstNode) (s : AnalyzerState),
      assocLookup s.functions name = none →
      analyzeAst (.functionCall name args) s =
        .error (.semanticError ("Undefined function: " ++ name))) ∧
    (∀ (name : String) (args : List AstNode) (s : AnalyzerState)
      (pts : List KururiType) (rt : KururiType),
      assocLookup s.functions name = some (pts, rt) → args.length ≠ pts.length →
      analyzeAst (.functionCall name args) s =
        .error (.semanticError ("Function " ++ name ++ " expects " ++ toString pts.length ++
          " arguments, got " ++ toString args.length))) ∧
    (∀ (name : String) (args : List AstNode) (s : AnalyzerState)
      (pts : List KururiType) (rt : KururiType),
      assocLookup s.functions name = some (pts, rt) → args.length = pts.length →
      ((∃ r s', analyzeAst (.functionCall name args) s = .ok (r, s')) ↔
        ∃ s₂, ArgsThread pts args s s₂)) ∧
    (∀ (name : String) (s : AnalyzerState) (psPre psRest : List KururiType) (p rt : KururiType)
      (asPre asRest : List AstNode) (a a' : AstNode) (sMid s₁ : AnalyzerState) (t : KururiType),
      assocLookup s.functions name = some (psPre ++ p :: psRest, rt) →
      (asPre ++ a :: asRest).length = (psPre ++ p :: psRest).length →
      ArgsThread psPre asPre s sMid →
      analyzeAst a sMid = .ok (a', s₁) → getExpressionType s₁ a = .ok t →
      typesCompatible p t = false →
      analyzeAst (.functionCall name (asPre ++ a :: asRest)) s =
        .error (.semanticError ("Argument " ++ toString (asPre.length + 1) ++
          " type mismatch: expected " ++ p.render ++ ", found " ++ t.render))) := by
  have harm : ∀ (name : String) (args : List AstNode) (s : AnalyzerState),
      analyzeAst (.functionCall name args) s = (match assocLookup s.functions name with
        | some (param_types, _) =>
          if args.length ≠ param_types.length then
            (.error (.semanticError
              ("Function " ++ name ++ " expects " ++ toString param_types.length ++
               " arguments, got " ++ toString args.length)) :
                Except CompilerError (AstNode × AnalyzerState))
          else do
            let (args', s₁) ← analyzeArgs param_types 0 args s
            .ok (.functionCall name args', s₁)
        | none => .error (.semanticError ("Undefined function: " ++ name))) :=
    fun name args s => rfl
  refine ⟨?_, ?_, ?_, ?_⟩
  · intro name args s hnone
    rw [harm, hnone]
  · intro name args s pts rt hsome hlen
    rw [harm, hsome]
    simp only [if_pos hlen]
  · intro name args s pts rt hsome hlen
    rw [harm, hsome]
    simp only [if_neg (by simp [hlen] :
      ¬ args.length ≠ pts.length)]
    constructor
    · rintro ⟨r, s', hok⟩
      obtain ⟨⟨args', s₂⟩, hrun, _⟩ := (bind_ok _ _ _).mp hok
      exact ⟨s₂, run_argsThread args pts 0 s args' s₂ hlen.symm hrun⟩
    · rintro ⟨s₂, hthread⟩
      obtain ⟨as', hrun⟩ := argsThread_run hthread 0
      exact ⟨.functionCall name as', s₂, (bind_ok _ _ _).mpr ⟨(as', s₂), hrun, rfl⟩⟩
  · intro name s psPre psRest p rt asPre asRest a a' sMid s₁ t hsome hlen hpre hok hty htc
    rw [harm, hsome]
    simp only [if_neg (by simp [hlen] :
      ¬ (asPre ++ a :: asRest).length ≠ (psPre ++ p :: psRest).length)]
    have hnat : asPre.length + 1 = 0 + asPre.length + 1 := by omega
    rw [hnat, argsThread_mismatch hpre p psRest a asRest a' s₁ t 0 hok hty htc]
    rfl

/-- Counterexample for C7: for a defined callee with matching arity whose
argument's computed type matches the parameter type, the claim predicts
success — but an argument whose own analysis fails (here an assignment to
the undefined `x`, whose computed type is `string` as required) fails the
call, and with an error that names no argument index. -/
theorem claim7_counterexample :
    assocLookup initState.functions "output" =
      some ([KururiType.string], KururiType.void) ∧
    getExpressionType initState (.assignment (.identifier "x") (.stringLiteral "a")) =
      .ok .string ∧
    analyzeAst (.functionCall "output"
        [.assignment (.identifier "x") (.stringLiteral "a")]) initState =
      .error (.semanticError "Undefined variable: x") :=
  ⟨rfl, rfl, rfl⟩

/-- Witness for C7 (amended): the undefined-callee clause at spec scenario
S4's call. -/
theorem claim7_witness :
    analyzeAst (.functionCall "undefined_func" []) initState =
      .error (.semanticError "Undefined function: undefined_func") :=
  claim7_call_contract.1 "undefined_func" [] initState rfl

end Kururi
